import Mathlib

/-!
Verification of the hot-reload build orchestrator (`build_hot_reload.py`).

The development shallowly embeds the script's core: the change detector
(`check_for_changes`, `populate_last_mtimes` over the `last_mtimes` dict),
the build driver (`build_dll`, `build_and_run_binary`, `build_and_run_project`),
the process manager (`is_binary_running`, `run_binary`) and one iteration of
the watch loop (`watch_for_changes`).

Modelling choices:
* The `last_mtimes` dict is an association list with unique keys
  (`Snapshot`); `snapLookup` / `snapInsert` / `snapErase` mirror Python's
  `dict.get`, item assignment and `dict.pop`.
* A directory scan is a flattened `os.walk` listing: a list of `WalkEntry`,
  each carrying the full file path and the result of `Path.stat().st_mtime`
  (`none` models the `FileNotFoundError` race where the file vanishes
  between being listed and being stat'ed).  Modification times are `Nat`.
* External effects (compiler exit status, the bytes it writes, the OS
  process-table query, environment variables, spawning, sleeping) are
  explicit inputs and an event trace in the result.
-/

namespace Muninn

/-- Modification timestamp (`st_mtime`). -/
abbrev Mtime := Nat

/-- The `last_mtimes` dictionary: file path to last observed mtime. -/
abbrev Snapshot := List (String × Mtime)

/-- Python's `last_mtimes.get(p)` / `p in last_mtimes`. -/
def snapLookup : Snapshot → String → Option Mtime
  | [], _ => none
  | (q, n) :: rest, p => if q = p then some n else snapLookup rest p

/-- Assignment `last_mtimes[p] = m` (update in place, or append a fresh key). -/
def snapInsert : Snapshot → String → Mtime → Snapshot
  | [], p, m => [(p, m)]
  | (q, n) :: rest, p, m =>
      if q = p then (q, m) :: rest else (q, n) :: snapInsert rest p m

/-- Python's `last_mtimes.pop(p, None)`. -/
def snapErase : Snapshot → String → Snapshot
  | [], _ => []
  | (q, n) :: rest, p => if q = p then rest else (q, n) :: snapErase rest p

/-- Python's `needle in hay` on strings, via character lists. -/
def charsMatchAt : List Char → List Char → Bool
  | [], _ => true
  | _ :: _, [] => false
  | a :: as, b :: bs => a == b && charsMatchAt as bs

/-- Substring occurrence check used by `EXE in result`. -/
def charsOccur : List Char → List Char → Bool
  | n, [] => n.isEmpty
  | n, h :: hs => charsMatchAt n (h :: hs) || charsOccur n hs

/-- Python's `needle in hay` for strings. -/
def strContains (hay needle : String) : Bool :=
  charsOccur needle.toList hay.toList

/-- Python's `s.endswith(tail)`: the reversed tail is an initial run of
the reversed string. -/
def strEndsWith (s tail : String) : Bool :=
  charsMatchAt tail.toList.reverse s.toList.reverse

/-- One file yielded by `os.walk`: its path and the outcome of
`Path.stat().st_mtime` (`none` when the stat raises `FileNotFoundError`). -/
structure WalkEntry where
  path : String
  stat : Option Mtime
deriving DecidableEq, Repr

/-- Function `check_for_changes(source_dir)`: scan the flattened walk listing against
the snapshot, short-circuiting at the first detected change.  Returns the
`changes_detected` boolean and the updated `last_mtimes`. -/
def check_for_changes : List WalkEntry → Snapshot → Bool × Snapshot
  | [], s => (false, s)
  | e :: rest, s =>
      if strEndsWith e.path ".odin" = false then
        check_for_changes rest s
      else
        match e.stat with
        | some mtime =>
            let not_checked : Bool := (snapLookup s e.path).isNone
            let changed : Bool := decide (snapLookup s e.path ≠ some mtime)
            if not_checked || changed then
              (true, snapInsert s e.path mtime)
            else
              check_for_changes rest s
        | none =>
            check_for_changes rest (snapErase s e.path)

/-- A static directory tree: every tracked file with its current mtime.
Used where no file disappears mid-scan; its walk listing stats every file
successfully. -/
def walkOfDisk (disk : List (String × Mtime)) : List WalkEntry :=
  disk.map (fun pm => { path := pm.1, stat := some pm.2 })

/-- Function `populate_last_mtimes(source_dir)`: rebuild the dict from the tree,
keeping only `.odin` files. -/
def populate_last_mtimes (disk : List (String × Mtime)) : Snapshot :=
  disk.foldl
    (fun s pm => if strEndsWith pm.1 ".odin" then snapInsert s pm.1 pm.2 else s)
    []

/-- The files actually inspected (stat attempted) by `check_for_changes`
before it returns: the `.odin` entries up to and including the first
detected change. -/
def inspectedFiles : List WalkEntry → Snapshot → List WalkEntry
  | [], _ => []
  | e :: rest, s =>
      if strEndsWith e.path ".odin" = false then
        inspectedFiles rest s
      else
        match e.stat with
        | some mtime =>
            if (snapLookup s e.path).isNone
                || decide (snapLookup s e.path ≠ some mtime) then
              [e]
            else
              e :: inspectedFiles rest s
        | none =>
            e :: inspectedFiles rest (snapErase s e.path)

/-- The host executable's name (`EXE`). -/
def EXE : String := "game_hot_reload.bin"

/-- Observable external actions of one build-and-run cycle and of one watch
iteration, in the order they are performed. -/
inductive Ev where
  | buildDll
  | buildExe
  | spawn
  | reloadNotice
  | stopConsumed
  | sleep
deriving DecidableEq, Repr

/-- The on-disk build artifacts the orchestrator writes: the temporary
module path `OUT_DIR/game_tmp{ext}` and the in-place module path
`OUT_DIR/game{ext}`.  `none` means the path does not exist; `some c` is the
file's content. -/
structure BuildFS where
  tmpArtifact : Option Nat
  gameArtifact : Option Nat
deriving DecidableEq, Repr

/-- One invocation of the external compiler for the module build: its exit
status (`ok` iff exit code 0, i.e. `subprocess.run(..., check=True)` does
not raise) and the bytes it leaves at the `-out:` temporary path. -/
structure CompilerRun where
  ok : Bool
  output : Nat
deriving DecidableEq, Repr

/-- Function `build_dll(dll_ext, extra_linker_flags)`: the compiler writes the
temporary path `game_tmp{ext}`; only on success is it renamed onto
`game{ext}`.  Returns the success flag, the resulting artifact state and
the event trace. -/
def build_dll (comp : CompilerRun) (fs : BuildFS) : Bool × BuildFS × List Ev :=
  let afterCompile : BuildFS := { fs with tmpArtifact := some comp.output }
  if comp.ok then
    (true,
     { tmpArtifact := none, gameArtifact := afterCompile.tmpArtifact },
     [Ev.buildDll])
  else
    (false, afterCompile, [Ev.buildDll])

/-- Function `build_and_run_binary()`: compile the host executable; `exeOk` is the
external compiler's exit status. -/
def build_and_run_binary (exeOk : Bool) : Bool × List Ev :=
  (exeOk, [Ev.buildExe])

/-- Function `is_binary_running()`: run the OS process-listing command and test
whether `EXE` occurs in its output; any raised error is caught and treated
as "not running".  `query` is the outcome of `subprocess.check_output`. -/
def is_binary_running (query : Except String String) : Bool :=
  match query with
  | Except.ok result => strContains result EXE
  | Except.error _ => false

/-- The spawned host process: the command and the `LD_LIBRARY_PATH` value
in its environment. -/
structure SpawnInfo where
  cmd : String
  ldLibraryPath : String
deriving DecidableEq, Repr

/-- Function `run_binary()`: if the host executable is not already running, spawn it
with `LD_LIBRARY_PATH` set to `f"{OUT_DIR}/linux:" + env.get("LD_LIBRARY_PATH", "")`;
otherwise only print the hot-reload notice.  `envLd` is the pre-existing
`LD_LIBRARY_PATH` (`none` when unset). -/
def run_binary (query : Except String String) (envLd : Option String) :
    Option SpawnInfo × List Ev :=
  if is_binary_running query = false then
    (some { cmd := "./" ++ EXE,
            ldLibraryPath := "build/hot_reload/linux:" ++ envLd.getD "" },
     [Ev.spawn])
  else
    (none, [Ev.reloadNotice])

/-- Function `build_and_run_project(dll_ext, extra_linker_flags)`: build the module,
build the executable, and only if both succeeded run the binary. -/
def build_and_run_project (comp : CompilerRun) (exeOk : Bool)
    (query : Except String String) (envLd : Option String) (fs : BuildFS) :
    BuildFS × Option SpawnInfo × List Ev :=
  let r1 := build_dll comp fs
  let dll_built := r1.1
  let r2 := build_and_run_binary exeOk
  let binary_built := r2.1
  if dll_built && binary_built then
    let r3 := run_binary query envLd
    (r1.2.1, r3.1, r1.2.2 ++ r2.2 ++ r3.2)
  else
    (r1.2.1, none, r1.2.2 ++ r2.2)

/-- The mutable state one watch-loop iteration reads and writes: the
`last_mtimes` snapshot, whether `EXIT_SIGNAL_FILE` exists, and the build
artifacts. -/
structure World where
  snapshot : Snapshot
  stopMarker : Bool
  fs : BuildFS
deriving DecidableEq, Repr

/-- Result of one iteration of the `while True` body of
`watch_for_changes`. -/
structure IterResult where
  world : World
  events : List Ev
  exited : Bool
deriving DecidableEq, Repr

/-- One iteration of `watch_for_changes`: poll for changes (rebuilding and
re-running on a detected change), then check the stop marker — consuming it
and breaking out of the loop when present — and otherwise sleep one poll
interval. -/
def watchIter (walk : List WalkEntry) (comp : CompilerRun) (exeOk : Bool)
    (query : Except String String) (envLd : Option String) (w : World) :
    IterResult :=
  let polled := check_for_changes walk w.snapshot
  let rebuilt :=
    if polled.1 then build_and_run_project comp exeOk query envLd w.fs
    else (w.fs, none, [])
  if w.stopMarker then
    { world := { snapshot := polled.2, stopMarker := false, fs := rebuilt.1 },
      events := rebuilt.2.2 ++ [Ev.stopConsumed],
      exited := true }
  else
    { world := { snapshot := polled.2, stopMarker := w.stopMarker, fs := rebuilt.1 },
      events := rebuilt.2.2 ++ [Ev.sleep],
      exited := false }

/-! ### Association-list (dict) lemmas -/

theorem snapLookup_insert_self (s : Snapshot) (p : String) (m : Mtime) :
    snapLookup (snapInsert s p m) p = some m := by
  induction s with
  | nil => simp [snapInsert, snapLookup]
  | cons a rest ih =>
      obtain ⟨q, n⟩ := a
      by_cases h : q = p
      · simp [snapInsert, snapLookup, h]
      · simp [snapInsert, snapLookup, h, ih]

theorem snapLookup_insert_ne (s : Snapshot) (p q : String) (m : Mtime)
    (h : q ≠ p) :
    snapLookup (snapInsert s p m) q = snapLookup s q := by
  induction s with
  | nil => simp [snapInsert, snapLookup, Ne.symm h]
  | cons a rest ih =>
      obtain ⟨k, n⟩ := a
      by_cases hk : k = p
      · subst hk
        simp [snapInsert, snapLookup, Ne.symm h]
      · simp [snapInsert, snapLookup, hk, ih]

theorem snapLookup_erase_ne (s : Snapshot) (p q : String) (h : q ≠ p) :
    snapLookup (snapErase s p) q = snapLookup s q := by
  induction s with
  | nil => simp [snapErase]
  | cons a rest ih =>
      obtain ⟨k, n⟩ := a
      by_cases hk : k = p
      · subst hk
        simp [snapErase, snapLookup, Ne.symm h]
      · simp [snapErase, snapLookup, hk, ih]

theorem snapLookup_erase_none (s : Snapshot) (p q : String)
    (h : snapLookup s q = none) :
    snapLookup (snapErase s p) q = none := by
  induction s with
  | nil => simp [snapErase, snapLookup]
  | cons a rest ih =>
      obtain ⟨k, n⟩ := a
      have hk : ¬ k = q := by
        intro hkq
        simp [snapLookup, hkq] at h
      have hrest : snapLookup rest q = none := by
        simpa [snapLookup, hk] using h
      by_cases hkp : k = p
      · simpa [snapErase, hkp] using hrest
      · simp [snapErase, snapLookup, hkp, hk, ih hrest]

/-! ### Core scan lemmas -/

/-- A scan never touches snapshot entries for paths that do not occur in
the walk listing. -/
theorem check_preserves_unlisted (w : List WalkEntry) (s : Snapshot)
    (p : String) (h : ∀ e ∈ w, e.path ≠ p) :
    snapLookup (check_for_changes w s).2 p = snapLookup s p := by
  induction w generalizing s with
  | nil => simp [check_for_changes]
  | cons a rest ih =>
      have ha : a.path ≠ p := h a (List.mem_cons_self a rest)
      have hrest : ∀ e ∈ rest, e.path ≠ p :=
        fun e he => h e (List.mem_cons_of_mem a he)
      cases hodin : strEndsWith a.path ".odin" with
      | false =>
          simpa [check_for_changes, hodin] using ih s hrest
      | true =>
          cases hstat : a.stat with
          | some m =>
              by_cases hc : snapLookup s a.path = some m
              · simpa [check_for_changes, hodin, hstat, hc] using ih s hrest
              · simp [check_for_changes, hodin, hstat, hc,
                      snapLookup_insert_ne s a.path p m (Ne.symm ha)]
          | none =>
              have := ih (snapErase s a.path) hrest
              simpa [check_for_changes, hodin, hstat,
                     snapLookup_erase_ne s a.path p (Ne.symm ha)] using this

/-- When every tracked file listed by the walk agrees with the snapshot,
the scan reports no change and returns the snapshot untouched. -/
theorem check_no_change (w : List WalkEntry) (s : Snapshot)
    (h : ∀ e ∈ w, strEndsWith e.path ".odin" = true →
      ∃ m, e.stat = some m ∧ snapLookup s e.path = some m) :
    check_for_changes w s = (false, s) := by
  induction w with
  | nil => simp [check_for_changes]
  | cons a rest ih =>
      have hrest : ∀ e ∈ rest, strEndsWith e.path ".odin" = true →
          ∃ m, e.stat = some m ∧ snapLookup s e.path = some m :=
        fun e he => h e (List.mem_cons_of_mem a he)
      cases hodin : strEndsWith a.path ".odin" with
      | false => simpa [check_for_changes, hodin] using ih hrest
      | true =>
          obtain ⟨m, hstat, hlook⟩ := h a (List.mem_cons_self a rest) hodin
          simpa [check_for_changes, hodin, hstat, hlook] using ih hrest

/-- If some tracked file listed by the walk (with a successful stat)
disagrees with the snapshot, the scan reports a change. -/
theorem check_detects_stale (w : List WalkEntry) (s : Snapshot)
    (hnd : (w.map WalkEntry.path).Nodup)
    (e : WalkEntry) (m : Mtime) (hmem : e ∈ w)
    (hodin : strEndsWith e.path ".odin" = true) (hstat : e.stat = some m)
    (hdiff : snapLookup s e.path ≠ some m) :
    (check_for_changes w s).1 = true := by
  induction w generalizing s with
  | nil => cases hmem
  | cons a rest ih =>
      have hndr : (rest.map WalkEntry.path).Nodup := (List.nodup_cons.mp hnd).2
      rcases List.mem_cons.mp hmem with he | he
      · subst he
        simp [check_for_changes, hodin, hstat, hdiff]
      · have hpath : a.path ≠ e.path := by
          intro hp
          exact (List.nodup_cons.mp hnd).1 (hp ▸ List.mem_map_of_mem WalkEntry.path he)
        cases hodina : strEndsWith a.path ".odin" with
        | false =>
            simpa [check_for_changes, hodina] using ih s hndr he hdiff
        | true =>
            cases hstata : a.stat with
            | some am =>
                by_cases hc : snapLookup s a.path = some am
                · simpa [check_for_changes, hodina, hstata, hc] using
                    ih s hndr he hdiff
                · simp [check_for_changes, hodina, hstata, hc]
            | none =>
                have hdiff' :
                    snapLookup (snapErase s a.path) e.path ≠ some m := by
                  rw [snapLookup_erase_ne s a.path e.path (Ne.symm hpath)]
                  exact hdiff
                simpa [check_for_changes, hodina, hstata] using
                  ih (snapErase s a.path) hndr he hdiff'

/-- A tracked file on disk that the snapshot has never seen forces the scan
to report a change. -/
theorem check_detects_new (w : List WalkEntry) (s : Snapshot)
    (e : WalkEntry) (m : Mtime) (hmem : e ∈ w)
    (hodin : strEndsWith e.path ".odin" = true) (hstat : e.stat = some m)
    (hnew : snapLookup s e.path = none) :
    (check_for_changes w s).1 = true := by
  induction w generalizing s with
  | nil => cases hmem
  | cons a rest ih =>
      rcases List.mem_cons.mp hmem with he | he
      · subst he
        simp [check_for_changes, hodin, hstat, hnew]
      · cases hodina : strEndsWith a.path ".odin" with
        | false =>
            simpa [check_for_changes, hodina] using ih s he hnew
        | true =>
            cases hstata : a.stat with
            | some am =>
                by_cases hc : snapLookup s a.path = some am
                · simpa [check_for_changes, hodina, hstata, hc] using
                    ih s he hnew
                · simp [check_for_changes, hodina, hstata, hc]
            | none =>
                have hnew' : snapLookup (snapErase s a.path) e.path = none :=
                  snapLookup_erase_none s a.path e.path hnew
                simpa [check_for_changes, hodina, hstata] using
                  ih (snapErase s a.path) he hnew'

/-- Folding the snapshot-population step over entries whose keys avoid `p`
leaves the entry for `p` untouched. -/
theorem populate_foldl_unlisted (disk : List (String × Mtime)) (acc : Snapshot)
    (p : String) (h : p ∉ disk.map Prod.fst) :
    snapLookup
      (disk.foldl
        (fun s pm => if strEndsWith pm.1 ".odin" then snapInsert s pm.1 pm.2 else s)
        acc) p
      = snapLookup acc p := by
  induction disk generalizing acc with
  | nil => rfl
  | cons a rest ih =>
      have hne : a.1 ≠ p := by
        intro hp
        exact h (by simp [hp])
      have hrest : p ∉ rest.map Prod.fst := by
        intro hm
        exact h (by simp [hm])
      rw [List.foldl_cons, ih _ hrest]
      by_cases he : strEndsWith a.1 ".odin"
      · simp [he, snapLookup_insert_ne acc a.1 p a.2 (Ne.symm hne)]
      · simp [he]

/-- After `populate_last_mtimes`, every tracked file of the tree is mapped
to its current mtime. -/
theorem populate_lookup (disk : List (String × Mtime))
    (hnd : (disk.map Prod.fst).Nodup) (p : String) (m : Mtime)
    (hmem : (p, m) ∈ disk) (hodin : strEndsWith p ".odin" = true) :
    snapLookup (populate_last_mtimes disk) p = some m := by
  suffices h : ∀ acc : Snapshot,
      snapLookup
        (disk.foldl
          (fun s pm =>
            if strEndsWith pm.1 ".odin" then snapInsert s pm.1 pm.2 else s)
          acc) p = some m by
    exact h []
  induction disk with
  | nil => cases hmem
  | cons a rest ih =>
      intro acc
      have hndr : (rest.map Prod.fst).Nodup := (List.nodup_cons.mp hnd).2
      rcases List.mem_cons.mp hmem with ha | ha
      · have hp : p ∉ rest.map Prod.fst := by
          have := (List.nodup_cons.mp hnd).1
          simpa [← ha] using this
        rw [List.foldl_cons, populate_foldl_unlisted rest _ p hp, ← ha]
        simp [hodin, snapLookup_insert_self]
      · rw [List.foldl_cons]
        exact ih hndr ha _

/-- Scanning a walk listing that contains exactly one new tracked file,
every other listed file agreeing with the snapshot, reports the change and
records the new file's mtime. -/
theorem check_single_new (w : List WalkEntry) :
    ∀ (s : Snapshot) (e : WalkEntry) (m : Mtime), e ∈ w →
      strEndsWith e.path ".odin" = true → e.stat = some m →
      snapLookup s e.path = none →
      (∀ e' ∈ w, e'.path = e.path → e' = e) →
      (∀ e' ∈ w, e'.path ≠ e.path → strEndsWith e'.path ".odin" = true →
        ∃ m', e'.stat = some m' ∧ snapLookup s e'.path = some m') →
      check_for_changes w s = (true, snapInsert s e.path m) := by
  induction w with
  | nil => intro s e m hmem; cases hmem
  | cons a rest ih =>
      intro s e m hmem hodin hstat hnew huniq hrest
      by_cases hae : a = e
      · subst hae
        simp [check_for_changes, hodin, hstat, hnew]
      · have hane : a.path ≠ e.path := fun hp =>
          hae (huniq a (List.mem_cons_self a rest) hp)
      -- with a distinct from e, e sits in the tail
        have hm : e ∈ rest := by
          rcases List.mem_cons.mp hmem with h | h
          · exact absurd h.symm hae
          · exact h
        have huniq' : ∀ e' ∈ rest, e'.path = e.path → e' = e :=
          fun e' he' => huniq e' (List.mem_cons_of_mem a he')
        have hrest' : ∀ e' ∈ rest, e'.path ≠ e.path →
            strEndsWith e'.path ".odin" = true →
            ∃ m', e'.stat = some m' ∧ snapLookup s e'.path = some m' :=
          fun e' he' => hrest e' (List.mem_cons_of_mem a he')
        cases hodina : strEndsWith a.path ".odin" with
        | false =>
            simpa [check_for_changes, hodina] using
              ih s e m hm hodin hstat hnew huniq' hrest'
        | true =>
            obtain ⟨am, hstata, hlook⟩ :=
              hrest a (List.mem_cons_self a rest) hane hodina
            simpa [check_for_changes, hodina, hstata, hlook] using
              ih s e m hm hodin hstat hnew huniq' hrest'

/-- Every file the scan actually inspects (stat succeeding) ends up with
its snapshot entry equal to its current mtime once the scan returns. -/
theorem check_updates_inspected (w : List WalkEntry) :
    ∀ s : Snapshot, (w.map WalkEntry.path).Nodup →
      ∀ e ∈ inspectedFiles w s, ∀ m : Mtime, e.stat = some m →
      snapLookup (check_for_changes w s).2 e.path = some m := by
  induction w with
  | nil =>
      intro s _ e he
      simp [inspectedFiles] at he
  | cons a rest ih =>
      intro s hnd e he m hstat
      have hndr : (rest.map WalkEntry.path).Nodup := (List.nodup_cons.mp hnd).2
      have hnotin : a.path ∉ rest.map WalkEntry.path := (List.nodup_cons.mp hnd).1
      cases hodina : strEndsWith a.path ".odin" with
      | false =>
          have he' : e ∈ inspectedFiles rest s := by
            simpa [inspectedFiles, hodina] using he
          simpa [check_for_changes, hodina] using ih s hndr e he' m hstat
      | true =>
          cases hstata : a.stat with
          | some am =>
              by_cases hc : snapLookup s a.path = some am
              · have he' : e = a ∨ e ∈ inspectedFiles rest s := by
                  simpa [inspectedFiles, hodina, hstata, hc] using he
                rcases he' with rfl | he'
                · have ham : am = m := by
                    rw [hstata] at hstat
                    exact Option.some.inj hstat
                  have hpres :
                      snapLookup (check_for_changes rest s).2 e.path =
                        snapLookup s e.path := by
                    apply check_preserves_unlisted
                    intro e2 he2 hp
                    exact hnotin (hp ▸ List.mem_map_of_mem WalkEntry.path he2)
                  simp [check_for_changes, hodina, hstata, hc, hpres, ← ham]
                · simpa [check_for_changes, hodina, hstata, hc] using
                    ih s hndr e he' m hstat
              · have he' : e = a := by
                  simpa [inspectedFiles, hodina, hstata, hc] using he
                subst he'
                have ham : am = m := by
                  rw [hstata] at hstat
                  exact Option.some.inj hstat
                simp [check_for_changes, hodina, hstata, hc, ← ham,
                      snapLookup_insert_self]
          | none =>
              have he' : e = a ∨ e ∈ inspectedFiles rest (snapErase s a.path) := by
                simpa [inspectedFiles, hodina, hstata] using he
              rcases he' with rfl | he'
              · rw [hstata] at hstat
                cases hstat
              · simpa [check_for_changes, hodina, hstata] using
                  ih (snapErase s a.path) hndr e he' m hstat

/-- A build-and-run cycle never emits the sleep action. -/
theorem sleep_not_in_build_events (comp : CompilerRun) (exeOk : Bool)
    (query : Except String String) (envLd : Option String) (fs : BuildFS) :
    Ev.sleep ∉ (build_and_run_project comp exeOk query envLd fs).2.2 := by
  rcases comp with ⟨ok, out⟩
  cases ok with
  | false =>
      cases exeOk <;>
        simp [build_and_run_project, build_dll, build_and_run_binary]
  | true =>
      cases exeOk with
      | false => simp [build_and_run_project, build_dll, build_and_run_binary]
      | true =>
          simp only [build_and_run_project, build_dll, build_and_run_binary,
            run_binary]
          by_cases h : is_binary_running query = false <;> simp [h]

/-- Both compiler invocations open every build-and-run cycle's trace, in
order, whatever their outcomes. -/
theorem build_events_shape (comp : CompilerRun) (exeOk : Bool)
    (query : Except String String) (envLd : Option String) (fs : BuildFS) :
    ∃ rest, (build_and_run_project comp exeOk query envLd fs).2.2 =
      Ev.buildDll :: Ev.buildExe :: rest := by
  rcases comp with ⟨ok, out⟩
  cases ok with
  | false => exact ⟨[], rfl⟩
  | true =>
      cases exeOk with
      | false => exact ⟨[], rfl⟩
      | true => exact ⟨(run_binary query envLd).2, rfl⟩

/-! ### Claim theorems -/

/-- C1 (counterexample): with the snapshot holding `b.odin` at mtime 5 and
the file deleted from disk, the next poll does NOT return true, and when
the deletion happens before the walk the entry is NOT removed either: a
file gone before the walk is never listed, so the scan returns false and
keeps the stale entry; and a file that vanishes between listing and stat
has its entry dropped but the poll still returns false. -/
theorem check_deletion_cex :
    check_for_changes [] [("b.odin", 5)] = (false, [("b.odin", 5)]) ∧
    check_for_changes [{ path := "b.odin", stat := none }] [("b.odin", 5)] =
      (false, []) := by
  constructor
  · rfl
  · decide

/-- C1 (amended): a tracked file present in the snapshot but already absent
from the walk listing is never inspected — its entry survives the poll
untouched; a tracked file that is listed but raises `FileNotFoundError` on
stat has its entry removed from the snapshot, but the removal is not
counted as a change (alone, it makes the poll return false). -/
theorem check_deletion_behavior (w : List WalkEntry) (s : Snapshot)
    (p : String) (m : Mtime) (hlook : snapLookup s p = some m)
    (hgone : ∀ e ∈ w, e.path ≠ p) (hodin : strEndsWith p ".odin" = true) :
    snapLookup (check_for_changes w s).2 p = some m ∧
    check_for_changes [{ path := p, stat := none }] s =
      (false, snapErase s p) := by
  constructor
  · rw [check_preserves_unlisted w s p hgone]
    exact hlook
  · simp [check_for_changes, hodin]

/-- Witness for the amended C1 at a concrete snapshot and walk. -/
theorem check_deletion_behavior_witness :
    snapLookup (check_for_changes [] [("b.odin", 5)]).2 "b.odin" = some 5 ∧
    check_for_changes [{ path := "b.odin", stat := none }] [("b.odin", 5)] =
      (false, snapErase [("b.odin", 5)] "b.odin") :=
  check_deletion_behavior [] [("b.odin", 5)] "b.odin" 5 rfl
    (by intro e he; cases he) (by decide)

/-- C2: when the module build's compiler invocation fails, the cycle never
reaches `run_binary` (no spawn, no reload notice, no spawned process), and
the in-place module artifact `game{ext}` is exactly what it was before the
cycle — the failed build only touched the temporary path. -/
theorem build_failure_isolation (out : Nat) (exeOk : Bool)
    (query : Except String String) (envLd : Option String) (fs : BuildFS) :
    (build_and_run_project { ok := false, output := out }
        exeOk query envLd fs).2.1 = none ∧
    Ev.spawn ∉ (build_and_run_project { ok := false, output := out }
        exeOk query envLd fs).2.2 ∧
    Ev.reloadNotice ∉ (build_and_run_project { ok := false, output := out }
        exeOk query envLd fs).2.2 ∧
    (build_and_run_project { ok := false, output := out }
        exeOk query envLd fs).1.gameArtifact = fs.gameArtifact := by
  refine ⟨rfl, ?_, ?_, rfl⟩ <;>
    simp [build_and_run_project, build_dll, build_and_run_binary]

/-- C7: when the OS process-listing query raises, `is_binary_running`
returns false instead of propagating the error, and `run_binary` therefore
attempts a spawn of the host executable. -/
theorem query_failure_spawns (msg : String) (envLd : Option String) :
    is_binary_running (Except.error msg) = false ∧
    ((run_binary (Except.error msg) envLd).1.isSome = true ∧
      (run_binary (Except.error msg) envLd).2 = [Ev.spawn]) :=
  ⟨rfl, rfl, rfl⟩

/-- C8: when the host executable is not running, `run_binary` spawns it
with `LD_LIBRARY_PATH` equal to the staged-library subdirectory of the
output directory prepended to the variable's pre-existing value; when it is
running, no process is spawned. -/
theorem run_binary_spawn_env (query : Except String String)
    (envLd : Option String) :
    (is_binary_running query = false →
      run_binary query envLd =
        (some { cmd := "./" ++ EXE,
                ldLibraryPath := "build/hot_reload/linux:" ++ envLd.getD "" },
         [Ev.spawn])) ∧
    (is_binary_running query = true →
      run_binary query envLd = (none, [Ev.reloadNotice])) := by
  constructor
  · intro h
    simp [run_binary, h]
  · intro h
    simp [run_binary, h]

/-- Witness for C8: a failing query leads to a spawn with the prepended
library path; a listing containing the executable name leads to no spawn. -/
theorem run_binary_spawn_env_witness :
    run_binary (Except.error "boom") (some "/usr/lib") =
      (some { cmd := "./" ++ EXE,
              ldLibraryPath :=
                "build/hot_reload/linux:" ++ (some "/usr/lib").getD "" },
       [Ev.spawn]) ∧
    run_binary (Except.ok "pid 1 ./game_hot_reload.bin") (some "/usr/lib") =
      (none, [Ev.reloadNotice]) :=
  ⟨(run_binary_spawn_env (Except.error "boom") (some "/usr/lib")).1 rfl,
   (run_binary_spawn_env (Except.ok "pid 1 ./game_hot_reload.bin")
      (some "/usr/lib")).2 (by decide)⟩

/-- C10: every build-and-run cycle attempts both compiler invocations
unconditionally — the trace always begins with the module build followed by
the executable build, for every module-build outcome. -/
theorem both_builds_attempted (comp : CompilerRun) (exeOk : Bool)
    (query : Except String String) (envLd : Option String) (fs : BuildFS) :
    ∃ rest, (build_and_run_project comp exeOk query envLd fs).2.2 =
      Ev.buildDll :: Ev.buildExe :: rest :=
  build_events_shape comp exeOk query envLd fs

/-- C3: on every poll — even one that short-circuits — each file actually
inspected (with a successful stat) has its snapshot entry equal to its
current mtime when the scan returns, and any tracked, present file whose
snapshot entry still differs after the scan is detected by the next poll:
no change is silently skipped. -/
theorem poll_inspected_current (w : List WalkEntry) (s : Snapshot)
    (hnd : (w.map WalkEntry.path).Nodup) :
    (∀ e ∈ inspectedFiles w s, ∀ m : Mtime, e.stat = some m →
      snapLookup (check_for_changes w s).2 e.path = some m) ∧
    (∀ e ∈ w, strEndsWith e.path ".odin" = true → ∀ m : Mtime,
      e.stat = some m →
      snapLookup (check_for_changes w s).2 e.path ≠ some m →
      (check_for_changes w (check_for_changes w s).2).1 = true) := by
  constructor
  · exact check_updates_inspected w s hnd
  · intro e he hodin m hstat hdiff
    exact check_detects_stale w _ hnd e m he hodin hstat hdiff

/-- Witness for C3: a modified file is inspected and its entry is current
after the poll. -/
theorem poll_inspected_current_witness :
    snapLookup
      (check_for_changes [{ path := "a.odin", stat := some 2 }]
        [("a.odin", 1)]).2 "a.odin" = some 2 :=
  (poll_inspected_current [{ path := "a.odin", stat := some 2 }]
      [("a.odin", 1)] (by decide)).1
    { path := "a.odin", stat := some 2 } (by decide) 2 rfl

/-- C4: for every tree state, once the snapshot has been taken from that
tree, two successive polls with no intervening file-system change both
return false and both leave the snapshot exactly as it was. -/
theorem idempotent_snapshot (disk : List (String × Mtime))
    (hnd : (disk.map Prod.fst).Nodup) :
    check_for_changes (walkOfDisk disk) (populate_last_mtimes disk) =
      (false, populate_last_mtimes disk) ∧
    check_for_changes (walkOfDisk disk)
        (check_for_changes (walkOfDisk disk) (populate_last_mtimes disk)).2 =
      (false, populate_last_mtimes disk) := by
  have hagree : ∀ e ∈ walkOfDisk disk, strEndsWith e.path ".odin" = true →
      ∃ m, e.stat = some m ∧
        snapLookup (populate_last_mtimes disk) e.path = some m := by
    intro e he hodin
    obtain ⟨pm, hpm, rfl⟩ := List.mem_map.mp he
    exact ⟨pm.2, rfl, populate_lookup disk hnd pm.1 pm.2 hpm (by simpa using hodin)⟩
  have h1 := check_no_change (walkOfDisk disk) (populate_last_mtimes disk) hagree
  refine ⟨h1, ?_⟩
  rw [h1]
  exact h1

/-- Witness for C4 on a concrete two-file tree. -/
theorem idempotent_snapshot_witness :
    check_for_changes (walkOfDisk [("a.odin", 1), ("b.odin", 2)])
        (populate_last_mtimes [("a.odin", 1), ("b.odin", 2)]) =
      (false, populate_last_mtimes [("a.odin", 1), ("b.odin", 2)]) ∧
    check_for_changes (walkOfDisk [("a.odin", 1), ("b.odin", 2)])
        (check_for_changes (walkOfDisk [("a.odin", 1), ("b.odin", 2)])
          (populate_last_mtimes [("a.odin", 1), ("b.odin", 2)])).2 =
      (false, populate_last_mtimes [("a.odin", 1), ("b.odin", 2)]) :=
  idempotent_snapshot [("a.odin", 1), ("b.odin", 2)] (by decide)

/-- C5: whenever the stop marker exists at the stop-check point of a watch
iteration, that iteration exits the loop, the marker is consumed (deleted,
so it cannot trigger a second stop), and the iteration does not even sleep
before exiting. -/
theorem stop_signal_consumed (walk : List WalkEntry) (comp : CompilerRun)
    (exeOk : Bool) (query : Except String String) (envLd : Option String)
    (snap : Snapshot) (fs : BuildFS) :
    (watchIter walk comp exeOk query envLd
        { snapshot := snap, stopMarker := true, fs := fs }).exited = true ∧
    (watchIter walk comp exeOk query envLd
        { snapshot := snap, stopMarker := true, fs := fs }).world.stopMarker =
      false ∧
    Ev.sleep ∉ (watchIter walk comp exeOk query envLd
        { snapshot := snap, stopMarker := true, fs := fs }).events := by
  refine ⟨rfl, rfl, ?_⟩
  intro hmem
  have hmem' : Ev.sleep ∈
      (if (check_for_changes walk snap).1 then
        build_and_run_project comp exeOk query envLd fs
      else (fs, none, [])).2.2 ++ [Ev.stopConsumed] := by
    simpa [watchIter] using hmem
  rcases List.mem_append.mp hmem' with h | h
  · revert h
    cases (check_for_changes walk snap).1
    · simp
    · simpa using sleep_not_in_build_events comp exeOk query envLd fs
  · simp at h

/-- C6 (counterexample): with an empty snapshot and two new tracked files,
the first poll returns true but — because the scan short-circuits — does
not record the second file's mtime, and the subsequent poll with no further
changes returns true again, not false. -/
theorem new_file_short_circuit_cex :
    (check_for_changes
        [{ path := "a.odin", stat := some 1 },
         { path := "b.odin", stat := some 2 }] []).1 = true ∧
    snapLookup (check_for_changes
        [{ path := "a.odin", stat := some 1 },
         { path := "b.odin", stat := some 2 }] []).2 "b.odin" = none ∧
    (check_for_changes
        [{ path := "a.odin", stat := some 1 },
         { path := "b.odin", stat := some 2 }]
        (check_for_changes
          [{ path := "a.odin", stat := some 1 },
           { path := "b.odin", stat := some 2 }] []).2).1 = true := by
  decide

/-- C6 (amended): a tracked file present on disk but absent from the
snapshot makes the poll return true; when it is the only difference between
the walk and the snapshot, that poll records its mtime and a subsequent
poll with no further changes returns false. -/
theorem new_file_detection :
    (∀ (w : List WalkEntry) (s : Snapshot) (e : WalkEntry) (m : Mtime),
      e ∈ w → strEndsWith e.path ".odin" = true → e.stat = some m →
      snapLookup s e.path = none →
      (check_for_changes w s).1 = true) ∧
    (∀ (w : List WalkEntry) (s : Snapshot) (e : WalkEntry) (m : Mtime),
      e ∈ w → strEndsWith e.path ".odin" = true → e.stat = some m →
      snapLookup s e.path = none →
      (∀ e' ∈ w, e'.path = e.path → e' = e) →
      (∀ e' ∈ w, e'.path ≠ e.path → strEndsWith e'.path ".odin" = true →
        ∃ m', e'.stat = some m' ∧ snapLookup s e'.path = some m') →
      check_for_changes w s = (true, snapInsert s e.path m) ∧
      snapLookup (check_for_changes w s).2 e.path = some m ∧
      check_for_changes w (check_for_changes w s).2 =
        (false, (check_for_changes w s).2)) := by
  constructor
  · intro w s e m hmem hodin hstat hnew
    exact check_detects_new w s e m hmem hodin hstat hnew
  · intro w s e m hmem hodin hstat hnew huniq hrest
    have hmain : check_for_changes w s = (true, snapInsert s e.path m) :=
      check_single_new w s e m hmem hodin hstat hnew huniq hrest
    refine ⟨hmain, ?_, ?_⟩
    · rw [hmain]
      exact snapLookup_insert_self s e.path m
    · rw [hmain]
      apply check_no_change
      intro e' he' hodin'
      by_cases hp : e'.path = e.path
      · have he2 : e' = e := huniq e' he' hp
        refine ⟨m, by rw [he2]; exact hstat, ?_⟩
        rw [hp]
        exact snapLookup_insert_self s e.path m
      · obtain ⟨m', hstat', hlook'⟩ := hrest e' he' hp hodin'
        exact ⟨m', hstat',
          by rw [snapLookup_insert_ne s e.path e'.path m hp]; exact hlook'⟩

/-- Witness for the amended C6: one new file in an otherwise empty
snapshot is detected, recorded, and the next poll is quiet. -/
theorem new_file_detection_witness :
    (check_for_changes
        [{ path := "c.odin", stat := some 1 },
         { path := "d.odin", stat := some 2 }] []).1 = true ∧
    (check_for_changes [{ path := "a.odin", stat := some 1 }] [] =
        (true, snapInsert [] "a.odin" 1) ∧
      snapLookup
        (check_for_changes [{ path := "a.odin", stat := some 1 }] []).2
        "a.odin" = some 1 ∧
      check_for_changes [{ path := "a.odin", stat := some 1 }]
          (check_for_changes [{ path := "a.odin", stat := some 1 }] []).2 =
        (false,
          (check_for_changes [{ path := "a.odin", stat := some 1 }] []).2)) :=
  ⟨new_file_detection.1
      [{ path := "c.odin", stat := some 1 },
       { path := "d.odin", stat := some 2 }] []
      { path := "d.odin", stat := some 2 } 2
      (by decide) (by decide) rfl rfl,
   new_file_detection.2 [{ path := "a.odin", stat := some 1 }] []
    { path := "a.odin", stat := some 1 } 1
    (by decide) (by decide) rfl rfl
    (by
      intro e' he' _
      simpa using he')
    (by
      intro e' he' hne _
      rcases List.mem_singleton.mp he' with rfl
      exact absurd rfl hne)⟩

/-- C9: in an iteration where a change is detected and the stop marker is
present, the full rebuild-and-run cycle runs first and only then is the
stop marker consumed and the loop exited: the whole build trace precedes
the stop event. -/
theorem rebuild_precedes_stop (walk : List WalkEntry) (comp : CompilerRun)
    (exeOk : Bool) (query : Except String String) (envLd : Option String)
    (snap : Snapshot) (fs : BuildFS)
    (hch : (check_for_changes walk snap).1 = true) :
    (watchIter walk comp exeOk query envLd
        { snapshot := snap, stopMarker := true, fs := fs }).events =
      (build_and_run_project comp exeOk query envLd fs).2.2 ++
        [Ev.stopConsumed] ∧
    Ev.buildDll ∈ (build_and_run_project comp exeOk query envLd fs).2.2 ∧
    Ev.buildExe ∈ (build_and_run_project comp exeOk query envLd fs).2.2 ∧
    (watchIter walk comp exeOk query envLd
        { snapshot := snap, stopMarker := true, fs := fs }).exited = true := by
  obtain ⟨rest, hshape⟩ := build_events_shape comp exeOk query envLd fs
  refine ⟨?_, ?_, ?_, rfl⟩
  · simp [watchIter, hch]
  · rw [hshape]
    exact List.mem_cons_self _ _
  · rw [hshape]
    exact List.mem_cons_of_mem _ (List.mem_cons_self _ _)

/-- Witness for C9: a concrete changed file with the stop marker set. -/
theorem rebuild_precedes_stop_witness :
    (watchIter [{ path := "a.odin", stat := some 1 }]
        { ok := true, output := 7 } true (Except.error "down") none
        { snapshot := [], stopMarker := true,
          fs := { tmpArtifact := none, gameArtifact := none } }).events =
      (build_and_run_project { ok := true, output := 7 } true
          (Except.error "down") none
          { tmpArtifact := none, gameArtifact := none }).2.2 ++
        [Ev.stopConsumed] ∧
    Ev.buildDll ∈ (build_and_run_project { ok := true, output := 7 } true
        (Except.error "down") none
        { tmpArtifact := none, gameArtifact := none }).2.2 ∧
    Ev.buildExe ∈ (build_and_run_project { ok := true, output := 7 } true
        (Except.error "down") none
        { tmpArtifact := none, gameArtifact := none }).2.2 ∧
    (watchIter [{ path := "a.odin", stat := some 1 }]
        { ok := true, output := 7 } true (Except.error "down") none
        { snapshot := [], stopMarker := true,
          fs := { tmpArtifact := none, gameArtifact := none } }).exited =
      true :=
  rebuild_precedes_stop [{ path := "a.odin", stat := some 1 }]
    { ok := true, output := 7 } true (Except.error "down") none []
    { tmpArtifact := none, gameArtifact := none } (by decide)

end Muninn
